import Mathlib

set_option maxRecDepth 8000

/-!
Verification development for the Demucs audio-separation backend
(`demucs-sagemaker-backend/serve.py`).

The file shallowly embeds the request handler `invocations`, the URI
decomposition `parse_s3_uri` and the cleanup routine
`cleanup_local_files`.  External effects (S3 transfers, the demucs
subprocess, the filesystem listing) are supplied by a `World` record of
oracles; the handler is a pure function of the parsed request body and
the world, returning the HTTP response together with the trace of
performed I/O actions and the final state of the two request-scoped
local artifacts (the downloaded input file and the per-session output
directory).
-/

/-! ## JSON values and Python truthiness -/

/-- JSON values as produced by `json.loads` (numbers approximated by
integers; no claim depends on float semantics). -/
inductive JValue where
  | null : JValue
  | bool : Bool → JValue
  | num : Int → JValue
  | str : String → JValue
  | arr : List JValue → JValue
  | obj : List (String × JValue) → JValue
deriving Repr

/-- Python truthiness (`bool(v)`) of a JSON-decoded value: `None`,
`False`, `0`, `""`, `[]` and `{}` are falsy, everything else truthy. -/
def pyTruthy : JValue → Bool
  | JValue.null => false
  | JValue.bool b => b
  | JValue.num n => n != 0
  | JValue.str s => s != ""
  | JValue.arr l => !l.isEmpty
  | JValue.obj l => !l.isEmpty

/-- Truthiness of `data.get(key)`: Python's `None` (the key is absent)
is falsy. -/
def truthyOpt : Option JValue → Bool
  | none => false
  | some v => pyTruthy v

/-- `dict.get` on a JSON object decoded by `json.loads`: for duplicate
keys the last occurrence wins, as in Python dict construction. -/
def jsonGet (fields : List (String × JValue)) (k : String) : Option JValue :=
  List.foldl (fun acc p => if p.1 = k then some p.2 else acc) none fields

/-! ## String helpers used by `serve.py` -/

/-- The character list of the literal scheme `"s3://"`. -/
def s3pat : List Char := ['s', '3', ':', '/', '/']

/-- Does the list start with the pattern `s3://`? -/
def startsS3 : List Char → Bool
  | 's' :: '3' :: ':' :: '/' :: '/' :: _ => true
  | _ => false

/-- Does `s3://` occur anywhere in the list? -/
def hasS3 : List Char → Bool
  | [] => false
  | c :: cs => startsS3 (c :: cs) || hasS3 cs

/-- `uri.replace("s3://", "")`: Python `str.replace` removes every
non-overlapping occurrence of the pattern, scanning left to right.  If
the five-character pattern starts at the current position it is skipped
wholesale and the scan continues after it; otherwise the character is
kept and the scan moves on by one. -/
def stripS3All : List Char → List Char
  | 's' :: '3' :: ':' :: '/' :: '/' :: rest => stripS3All rest
  | c :: cs => c :: stripS3All cs
  | [] => []

/-- `s.split("/", 1)`, restricted to the information the caller uses:
`none` when the string has no `'/'` (Python returns a one-element list
and `parts[1]` raises `IndexError`), otherwise the pieces before and
after the first `'/'`. -/
def splitFirst : List Char → Option (List Char × List Char)
  | [] => none
  | c :: cs =>
      if c = '/' then some ([], cs)
      else match splitFirst cs with
           | none => none
           | some (b, k) => some (c :: b, k)

/-- Character-level body of `parse_s3_uri`. -/
def parseS3Chars (l : List Char) : Option (List Char × List Char) :=
  splitFirst (stripS3All l)

/-- `parse_s3_uri(uri)` from `serve.py`:
`parts = uri.replace("s3://", "").split("/", 1); return parts[0], parts[1]`.
`none` models the `IndexError` raised when there is no separator. -/
def parse_s3_uri (uri : String) : Option (String × String) :=
  match parseS3Chars uri.toList with
  | none => none
  | some (b, k) => some (String.mk b, String.mk k)

/-- `os.path.basename` on the character list: the part after the last
`'/'`. -/
def basenameChars (l : List Char) : List Char :=
  (l.reverse.takeWhile (fun c => c != '/')).reverse

/-- `os.path.basename(key)`. -/
def basename (s : String) : String := String.mk (basenameChars s.toList)

/-- Index of the last `'.'` in the list, if any (`str.rfind('.')`). -/
def rfindDot : List Char → Option Nat
  | [] => none
  | c :: cs =>
      match rfindDot cs with
      | some i => some (i + 1)
      | none => if c = '.' then some 0 else none

/-- `pathlib.Path(name).stem` for a bare file name: drop the last
extension when the last dot is neither the first nor the final
character. -/
def stemChars (name : List Char) : List Char :=
  match rfindDot name with
  | none => name
  | some i => if 0 < i ∧ i + 1 < name.length then name.take i else name

/-- `Path(filename).stem`. -/
def stem (s : String) : String := String.mk (stemChars s.toList)

/-- `s.rstrip('/')`: remove every trailing `'/'`. -/
def rstripSlash (s : String) : String :=
  String.mk ((s.toList.reverse.dropWhile (fun c => c = '/')).reverse)

/-! ## The external world and the request-scoped local state -/

/-- Presence on disk of the two request-scoped local artifacts:
`local_input_path` (the downloaded input file under `UPLOAD_DIR`) and
`output_path` (the per-session directory under `OUTPUT_DIR`). -/
structure DiskState where
  inputFileExists : Bool
  outputDirExists : Bool
deriving Repr, DecidableEq

/-- An externally visible I/O action performed by the handler:
an S3 download, the demucs subprocess run, or an S3 upload. -/
inductive EffAction where
  | download : String → String → String → EffAction
  | runTool : List String → EffAction
  | upload : String → String → String → EffAction
deriving Repr, DecidableEq

/-- Oracle for everything outside the handler's control: whether the S3
transfers succeed, what the demucs subprocess returns, what the
filesystem reports about the conventional output directory, and whether
the two deletion calls inside `cleanup_local_files` raise.  Free-text
fields stand for environment-dependent exception and log text. -/
structure World where
  sysExecutable : String
  downloadOk : Bool
  downloadErrText : String
  demucsReturncode : Int
  demucsStdout : String
  demucsStderr : String
  sepDirExists : Bool
  sepFiles : List String
  uploadOk : String → Bool
  uploadErrText : String
  removeThrows : Bool
  rmtreeThrows : Bool
  tracebackText : String

/-- The handler's observable outcome: HTTP status code, JSON body, the
trace of I/O actions performed, and the final state of the two local
artifacts. -/
structure HResponse where
  statusCode : Nat
  body : JValue
  trace : List EffAction
  disk : DiskState

/-- `UPLOAD_DIR` from `serve.py`. -/
def UPLOAD_DIR : String := "/tmp/uploads"

/-- `OUTPUT_DIR` from `serve.py`. -/
def OUTPUT_DIR : String := "/tmp/output"

/-- `cleanup_local_files(input_path, output_path)` from `serve.py`: a
`try` block that removes the input file if it exists, then recursively
removes the output directory if it exists; any exception is caught and
logged inside the routine, so the function is total and returns only
the resulting disk state.  If `os.remove` raises, `shutil.rmtree` is
never attempted; if `shutil.rmtree` raises, the input file is already
gone. -/
def cleanup_local_files (w : World) (d : DiskState) : DiskState :=
  if d.inputFileExists && w.removeThrows then d
  else if d.outputDirExists && w.rmtreeThrows then
    { inputFileExists := false, outputDirExists := d.outputDirExists }
  else { inputFileExists := false, outputDirExists := false }

/-- Body of the top-level `except` branch:
`{"error": f"Error: {str(e)}\n{traceback.format_exc()}"}`. -/
def errorBody (w : World) (msg : String) : JValue :=
  JValue.obj [("error", JValue.str ("Error: " ++ msg ++ "\n" ++ w.tracebackText))]

/-- An HTTP 500 response produced by the top-level exception handler. -/
def errResponse (w : World) (msg : String) (trace : List EffAction) (d : DiskState) :
    HResponse :=
  { statusCode := 500, body := errorBody w msg, trace := trace, disk := d }

/-- One `output_files` entry as built in the upload loop. -/
def uploadEntry (output_bucket s3_key filename : String) : JValue :=
  JValue.obj [("filename", JValue.str filename),
              ("s3_uri", JValue.str ("s3://" ++ output_bucket ++ "/" ++ s3_key))]

/-- The `for filename in os.listdir(separated_dir)` upload loop: builds
the per-file S3 key `f"{output_prefix.rstrip('/')}/{session_id}/{filename}"`,
uploads, and accumulates `uploaded_files` entries in listing order.  A
failing upload raises, aborting the loop with the actions attempted so
far (`Except.error`). -/
def uploadLoop (w : World) (output_bucket outPfx session_id separated_dir : String) :
    List String → Except (List EffAction) (List EffAction × List JValue)
  | [] => Except.ok ([], [])
  | filename :: rest =>
      let local_file := separated_dir ++ "/" ++ filename
      let s3_key := rstripSlash outPfx ++ "/" ++ session_id ++ "/" ++ filename
      let act := EffAction.upload local_file output_bucket s3_key
      if w.uploadOk filename then
        match uploadLoop w output_bucket outPfx session_id separated_dir rest with
        | Except.ok (tr, entries) =>
            Except.ok (act :: tr, uploadEntry output_bucket s3_key filename :: entries)
        | Except.error tr => Except.error (act :: tr)
      else Except.error [act]

/-- The `/invocations` handler from `serve.py`.  `body` is the result of
`json.loads` (`none` models a body that is not valid JSON, which raises
and lands in the top-level `except`).  The nested matches mirror the
source's straight-line code with exceptions: each `errResponse` is an
exception reaching the top-level handler, with the disk state and I/O
trace as accumulated at the point the exception was raised.  Exception
texts that depend on the runtime environment (transfer errors, the
malformed-JSON message, attribute/type errors for non-string fields)
are abstracted; texts the source builds itself are literal. -/
def invocations (body : Option (List (String × JValue))) (w : World) : HResponse :=
  match body with
  | none => errResponse w "request body is not valid JSON" [] ⟨false, false⟩
  | some data =>
    let inVal := jsonGet data "input_s3_uri"
    let outVal := jsonGet data "output_s3_prefix"
    let sessVal := (jsonGet data "session_id").getD (JValue.str "default")
    if !truthyOpt inVal || !truthyOpt outVal then
      { statusCode := 400
        body := JValue.obj [("error", JValue.str "Missing input_s3_uri or output_s3_prefix")]
        trace := []
        disk := ⟨false, false⟩ }
    else
      match inVal with
      | some (JValue.str inUri) =>
        match parse_s3_uri inUri with
        | none => errResponse w "list index out of range" [] ⟨false, false⟩
        | some (input_bucket, input_key) =>
          match outVal with
          | some (JValue.str outUri) =>
            match parse_s3_uri outUri with
            | none => errResponse w "list index out of range" [] ⟨false, false⟩
            | some (output_bucket, outPfx) =>
              let input_filename := basename input_key
              let local_input_path := UPLOAD_DIR ++ "/" ++ input_filename
              let dlAct := EffAction.download input_bucket input_key local_input_path
              if !w.downloadOk then
                errResponse w w.downloadErrText [dlAct] ⟨false, false⟩
              else
                match sessVal with
                | JValue.str session_id =>
                  let output_path := OUTPUT_DIR ++ "/" ++ session_id
                  let cmd : List String :=
                    [w.sysExecutable, "-m", "demucs.separate",
                     "-n", "htdemucs",
                     "--two-stems", "vocals",
                     "--name", "htdemucs",
                     "-o", output_path,
                     local_input_path]
                  let tr1 : List EffAction := [dlAct, EffAction.runTool cmd]
                  if w.demucsReturncode != 0 then
                    errResponse w ("Demucs failed\n" ++ w.demucsStderr) tr1 ⟨true, true⟩
                  else
                    let separated_dir := output_path ++ "/htdemucs/" ++ stem input_filename
                    if !w.sepDirExists then
                      errResponse w "Output not found. Demucs path may be wrong." tr1 ⟨true, true⟩
                    else
                      match uploadLoop w output_bucket outPfx session_id separated_dir w.sepFiles with
                      | Except.error utr => errResponse w w.uploadErrText (tr1 ++ utr) ⟨true, true⟩
                      | Except.ok (utr, uploaded_files) =>
                          { statusCode := 200
                            body := JValue.obj
                              [("status", JValue.str "success"),
                               ("session_id", JValue.str session_id),
                               ("output_files", JValue.arr uploaded_files)]
                            trace := tr1 ++ utr
                            disk := cleanup_local_files w ⟨true, true⟩ }
                | _ =>
                    errResponse w "join argument must be a string" [dlAct] ⟨true, false⟩
          | _ => errResponse w "value has no attribute replace" [] ⟨false, false⟩
      | _ => errResponse w "value has no attribute replace" [] ⟨false, false⟩

/-- Does the response's trace show the external tool was invoked? -/
def isRunTool : EffAction → Bool
  | EffAction.runTool _ => true
  | _ => false

/-- The handler reached the tool-invocation step (the subprocess was
started). -/
def reachesToolStep (r : HResponse) : Bool := r.trace.any isRunTool

/-- The JSON body is an object carrying the given key. -/
def bodyHasKey (v : JValue) (k : String) : Bool :=
  match v with
  | JValue.obj fields => fields.any (fun p => p.1 == k)
  | _ => false

/-! ## Claim-side comparison semantics for the URI decomposition -/

/-- Strip only a LEADING `s3://` prefix (leave any later occurrence
alone). -/
def stripLeadingS3 (l : List Char) : List Char :=
  match l with
  | 's' :: '3' :: ':' :: '/' :: '/' :: rest => rest
  | _ => l

/-- Modelled from the claim's words (C10): the pair obtained by
"stripping only the leading scheme and splitting on the first
separator", to be compared against `parse_s3_uri` from the source. -/
def parseStripLeading (uri : String) : Option (String × String) :=
  match splitFirst (stripLeadingS3 uri.toList) with
  | none => none
  | some (b, k) => some (String.mk b, String.mk k)

/-- `pat` occurs as a contiguous substring of `hay`. -/
def strContains (hay pat : String) : Prop := ∃ a b : String, hay = a ++ pat ++ b

/-- An `output_files` entry as the claims describe it:
`s3://<output_bucket>/<output_prefix>/<session_id>/<filename>`. -/
def claimEntry (ob opfx sid f : String) : JValue :=
  JValue.obj [("filename", JValue.str f),
              ("s3_uri", JValue.str ("s3://" ++ ob ++ "/" ++ opfx ++ "/" ++ sid ++ "/" ++ f))]

/-! ## Concrete worlds and request bodies used by the witnesses -/

/-- A fully successful environment: transfers succeed, demucs exits 0
and produces the two conventional stem files, cleanup does not throw. -/
def wOk : World :=
  { sysExecutable := "/usr/bin/python3"
    downloadOk := true
    downloadErrText := "Could not connect to the endpoint URL"
    demucsReturncode := 0
    demucsStdout := ""
    demucsStderr := ""
    sepDirExists := true
    sepFiles := ["vocals.wav", "no_vocals.wav"]
    uploadOk := fun _ => true
    uploadErrText := "Failed to upload"
    removeThrows := false
    rmtreeThrows := false
    tracebackText := "Traceback (most recent call last):" }

/-- The successful environment except that demucs exits 1 with text on
stderr. -/
def wDemucsFail : World :=
  { wOk with demucsReturncode := 1, demucsStderr := "boom" }

/-- A well-formed request body with both required fields present and
parseable. -/
def reqData : List (String × JValue) :=
  [("input_s3_uri", JValue.str "s3://in-bucket/music/song.wav"),
   ("output_s3_prefix", JValue.str "s3://out-bucket/results")]

/-! ## Basic lemmas about the string helpers -/

theorem mk_toList (s : String) : String.mk s.toList = s := by
  cases s
  rfl

theorem stripS3All_nil : stripS3All [] = [] := rfl

theorem hasS3_cons (c : Char) (cs : List Char) :
    hasS3 (c :: cs) = (startsS3 (c :: cs) || hasS3 cs) := rfl

/-- A list starting with the pattern is literally the pattern followed
by a remainder. -/
theorem exists_of_startsS3 (l : List Char) (h : startsS3 l = true) :
    ∃ rest, l = 's' :: '3' :: ':' :: '/' :: '/' :: rest := by
  unfold startsS3 at h
  split at h
  · exact ⟨_, rfl⟩
  · exact absurd h (by simp)

/-- If the pattern does not start at the head, the scan keeps the head
character. -/
theorem stripS3All_cons_ne (c : Char) (cs : List Char)
    (h : startsS3 (c :: cs) = false) :
    stripS3All (c :: cs) = c :: stripS3All cs := by
  rw [stripS3All.eq_def]
  split
  · next x rest heq =>
      rw [heq] at h
      simp [startsS3] at h
  · next x c2 cs2 hx heq =>
      cases heq
      rfl
  · next x heq => cases heq

/-- A list starting with the pattern contains a slash. -/
theorem startsS3_mem (l : List Char) (h : startsS3 l = true) :
    ('/' : Char) ∈ l := by
  unfold startsS3 at h
  split at h
  · simp
  · exact absurd h (by simp)

/-- A list starting with the pattern has at least five characters. -/
theorem startsS3_length (l : List Char) (h : startsS3 l = true) :
    5 ≤ l.length := by
  unfold startsS3 at h
  split at h
  · simp
  · exact absurd h (by simp)

theorem stripS3All_s3pat (l : List Char) :
    stripS3All (s3pat ++ l) = stripS3All l := rfl

/-- If `s3://` occurs nowhere in the list, `str.replace` leaves it
unchanged. -/
theorem stripS3All_eq_self (l : List Char) (h : hasS3 l = false) :
    stripS3All l = l := by
  induction l with
  | nil => exact stripS3All_nil
  | cons c cs ih =>
      rw [hasS3_cons, Bool.or_eq_false_iff] at h
      rw [stripS3All_cons_ne c cs h.1]
      simp [ih h.2]

/-- If the pattern does not start at the head of a cons, it either
occurs in the tail or not at all. -/
theorem startsS3_false_of_not_pattern (c : Char) (cs : List Char)
    (hne : ∀ rest, c = 's' → cs = '3' :: ':' :: '/' :: '/' :: rest → False) :
    startsS3 (c :: cs) = false := by
  cases hss : startsS3 (c :: cs) with
  | false => rfl
  | true =>
      obtain ⟨rest, hrest⟩ := exists_of_startsS3 _ hss
      injection hrest with h1 h2
      exact (hne rest h1 h2).elim

/-- Removal never lengthens the string. -/
theorem stripS3All_length_le (l : List Char) :
    (stripS3All l).length ≤ l.length := by
  induction l using stripS3All.induct with
  | case1 rest ih =>
      rw [show stripS3All ('s' :: '3' :: ':' :: '/' :: '/' :: rest) = stripS3All rest from rfl]
      simp only [List.length_cons]
      omega
  | case2 c cs hne ih =>
      rw [stripS3All_cons_ne c cs (startsS3_false_of_not_pattern c cs hne)]
      simp only [List.length_cons]
      omega
  | case3 => simp [stripS3All_nil]

/-- If `s3://` occurs somewhere, the replacement is strictly shorter. -/
theorem stripS3All_length_lt (l : List Char) (h : hasS3 l = true) :
    (stripS3All l).length < l.length := by
  induction l using stripS3All.induct with
  | case1 rest ih =>
      rw [show stripS3All ('s' :: '3' :: ':' :: '/' :: '/' :: rest) = stripS3All rest from rfl]
      have hle := stripS3All_length_le rest
      simp only [List.length_cons]
      omega
  | case2 c cs hne ih =>
      have hs : startsS3 (c :: cs) = false :=
        startsS3_false_of_not_pattern c cs hne
      rw [stripS3All_cons_ne c cs hs]
      rw [hasS3_cons, hs, Bool.false_or] at h
      simp only [List.length_cons]
      exact Nat.succ_lt_succ (ih h)
  | case3 => simp [hasS3] at h

/-- If `s3://` occurs in the tail, it occurs in the whole list. -/
theorem hasS3_append (l k : List Char) (h : hasS3 k = true) :
    hasS3 (l ++ k) = true := by
  induction l with
  | nil => simpa using h
  | cons c cs ih =>
      rw [List.cons_append, hasS3_cons, ih, Bool.or_true]

/-- `splitFirst` inverts the obvious concatenation. -/
theorem splitFirst_eq (l b k : List Char) (h : splitFirst l = some (b, k)) :
    l = b ++ '/' :: k := by
  induction l generalizing b k with
  | nil => simp [splitFirst] at h
  | cons c cs ih =>
      rw [splitFirst] at h
      by_cases hc : c = '/'
      · rw [if_pos hc] at h
        cases h
        simpa using hc
      · rw [if_neg hc] at h
        cases hsp : splitFirst cs with
        | none => rw [hsp] at h; cases h
        | some p =>
            obtain ⟨b0, k0⟩ := p
            rw [hsp] at h
            cases h
            simpa using ih _ _ hsp

/-- A list with no slash has no first-slash decomposition
(Python: `parts[1]` raises `IndexError`). -/
theorem splitFirst_eq_none (l : List Char) (h : ('/' : Char) ∉ l) :
    splitFirst l = none := by
  induction l with
  | nil => rfl
  | cons c cs ih =>
      have hc : c ≠ '/' := by
        intro hc
        exact h (by simp [hc])
      have hcs : ('/' : Char) ∉ cs := fun hm => h (List.mem_cons_of_mem _ hm)
      rw [splitFirst, if_neg hc, ih hcs]

/-- Splitting a list that does contain a slash succeeds. -/
theorem splitFirst_isSome (b k : List Char) (hb : ('/' : Char) ∉ b) :
    splitFirst (b ++ '/' :: k) = some (b, k) := by
  induction b with
  | nil => simp [splitFirst]
  | cons c cs ih =>
      have hc : c ≠ '/' := by
        intro hc
        exact hb (by simp [hc])
      have hcs : ('/' : Char) ∉ cs := fun hm => hb (List.mem_cons_of_mem _ hm)
      rw [List.cons_append, splitFirst, if_neg hc, ih hcs]

/-- Any list containing a slash splits into something. -/
theorem splitFirst_mem_some (l : List Char) (h : ('/' : Char) ∈ l) :
    ∃ p, splitFirst l = some p := by
  induction l with
  | nil => simp at h
  | cons c cs ih =>
      rw [splitFirst]
      by_cases hc : c = '/'
      · exact ⟨([], cs), by rw [if_pos hc]⟩
      · have hcs : ('/' : Char) ∈ cs := by
          rcases List.mem_cons.mp h with h1 | h2
          · exact absurd h1.symm hc
          · exact h2
        obtain ⟨⟨b0, k0⟩, hp⟩ := ih hcs
        exact ⟨(c :: b0, k0), by rw [if_neg hc, hp]⟩

/-- A list without a slash cannot contain the pattern `s3://`. -/
theorem hasS3_eq_false_of_no_slash (l : List Char) (h : ('/' : Char) ∉ l) :
    hasS3 l = false := by
  induction l with
  | nil => rfl
  | cons c cs ih =>
      have hcs : ('/' : Char) ∉ cs := fun hm => h (List.mem_cons_of_mem _ hm)
      rw [hasS3_cons, ih hcs, Bool.or_false]
      cases hss : startsS3 (c :: cs) with
      | false => rfl
      | true => exact absurd (startsS3_mem _ hss) h

/-! ## C6: decomposition of well-formed URIs -/

/-- C6 (counterexample): the claim says decomposition of
`scheme://bucket/<key>` always returns the key as everything after the
first separator; but for `"s3://bucket/as3://x"` (key `"as3://x"`) the
code's `uri.replace("s3://", "")` also deletes the inner occurrence,
returning `("bucket", "ax")` instead of `("bucket", "as3://x")`. -/
theorem parse_s3_uri_inner_scheme_cex :
    parse_s3_uri "s3://bucket/as3://x" = some ("bucket", "ax") ∧
      parse_s3_uri "s3://bucket/as3://x" ≠ some ("bucket", "as3://x") := by
  constructor
  · decide
  · decide

/-- C6 (amended): for every URI `s3://<bucket>/<key>` whose bucket has
no slash and in which the substring `s3://` occurs only as the leading
scheme, `parse_s3_uri` returns `(bucket, key)`: the bucket is the first
path segment and the key is everything after the first separator. -/
theorem parse_s3_uri_wellFormed (bucket key : List Char)
    (hb : ('/' : Char) ∉ bucket)
    (hocc : hasS3 (bucket ++ '/' :: key) = false) :
    parse_s3_uri (String.mk (s3pat ++ bucket ++ '/' :: key)) =
      some (String.mk bucket, String.mk key) := by
  have htl : (String.mk (s3pat ++ bucket ++ '/' :: key)).toList
      = s3pat ++ (bucket ++ '/' :: key) := by
    show s3pat ++ bucket ++ '/' :: key = s3pat ++ (bucket ++ '/' :: key)
    rw [List.append_assoc]
  unfold parse_s3_uri parseS3Chars
  rw [htl, stripS3All_s3pat, stripS3All_eq_self _ hocc, splitFirst_isSome _ _ hb]

/-- Witness for the amended C6 at the spec's own example
`s3://bucket/path/to/object.wav`. -/
theorem parse_s3_uri_wellFormed_witness :
    ('/' : Char) ∉ "bucket".toList ∧
    hasS3 ("bucket".toList ++ '/' :: "path/to/object.wav".toList) = false ∧
    parse_s3_uri (String.mk (s3pat ++ "bucket".toList ++ '/' :: "path/to/object.wav".toList)) =
      some (String.mk "bucket".toList, String.mk "path/to/object.wav".toList) :=
  ⟨by decide, by decide, parse_s3_uri_wellFormed _ _ (by decide) (by decide)⟩

/-! ## C10: the replace-all behavior is observable -/

/-- C10: `parse_s3_uri` removes every occurrence of `"s3://"` (Python
`str.replace`), so whenever the key portion itself contains `"s3://"`,
the result differs from stripping only the leading scheme and splitting
on the first separator. -/
theorem parse_s3_uri_replaceAll_differs (bucket key : List Char)
    (h : hasS3 key = true) :
    parse_s3_uri (String.mk (s3pat ++ bucket ++ '/' :: key)) ≠
      parseStripLeading (String.mk (s3pat ++ bucket ++ '/' :: key)) := by
  have htl : (String.mk (s3pat ++ bucket ++ '/' :: key)).toList
      = s3pat ++ (bucket ++ '/' :: key) := by
    show s3pat ++ bucket ++ '/' :: key = s3pat ++ (bucket ++ '/' :: key)
    rw [List.append_assoc]
  have hmem : ('/' : Char) ∈ bucket ++ '/' :: key := by simp
  obtain ⟨⟨b1, k1⟩, hsp⟩ := splitFirst_mem_some _ hmem
  have hlead : stripLeadingS3 (s3pat ++ (bucket ++ '/' :: key)) = bucket ++ '/' :: key := rfl
  have hrhs : parseStripLeading (String.mk (s3pat ++ bucket ++ '/' :: key))
      = some (String.mk b1, String.mk k1) := by
    unfold parseStripLeading
    rw [htl, hlead, hsp]
  have hhas : hasS3 (bucket ++ '/' :: key) = true := by
    refine hasS3_append _ _ ?_
    rw [hasS3_cons, h, Bool.or_true]
  have hlt : (stripS3All (bucket ++ '/' :: key)).length < (bucket ++ '/' :: key).length :=
    stripS3All_length_lt _ hhas
  have hlen1 : (bucket ++ '/' :: key).length = b1.length + 1 + k1.length := by
    rw [splitFirst_eq _ _ _ hsp]
    simp only [List.length_append, List.length_cons]
    omega
  intro heq
  unfold parse_s3_uri parseS3Chars at heq
  rw [htl, stripS3All_s3pat] at heq
  cases hsp2 : splitFirst (stripS3All (bucket ++ '/' :: key)) with
  | none =>
      rw [hsp2, hrhs] at heq
      cases heq
  | some p =>
      obtain ⟨b2, k2⟩ := p
      rw [hsp2, hrhs] at heq
      simp only [Option.some.injEq, Prod.mk.injEq] at heq
      have hb21 : b2 = b1 := congrArg String.data heq.1
      have hk21 : k2 = k1 := congrArg String.data heq.2
      have hlen2 : (stripS3All (bucket ++ '/' :: key)).length = b2.length + 1 + k2.length := by
        rw [splitFirst_eq _ _ _ hsp2]
        simp only [List.length_append, List.length_cons]
        omega
      rw [hlen2, hlen1, hb21, hk21] at hlt
      omega

/-- Witness for C10: bucket `b`, key `as3://x` (which contains
`s3://`). -/
theorem parse_s3_uri_replaceAll_differs_witness :
    hasS3 "as3://x".toList = true ∧
    parse_s3_uri (String.mk (s3pat ++ "b".toList ++ '/' :: "as3://x".toList)) ≠
      parseStripLeading (String.mk (s3pat ++ "b".toList ++ '/' :: "as3://x".toList)) :=
  ⟨by decide, parse_s3_uri_replaceAll_differs _ _ (by decide)⟩

/-! ## Auxiliary lemmas for the handler theorems -/

/-- String concatenation is associative (via the underlying data). -/
theorem strAssoc (a b c : String) : a ++ b ++ c = a ++ (b ++ c) := by
  apply String.ext
  simp [String.data_append, List.append_assoc]

/-- A URI accepted by `parse_s3_uri` is not the empty string (which is
falsy and would have been rejected by the 400 check). -/
theorem parse_some_ne_empty (u : String) (p : String × String)
    (h : parse_s3_uri u = some p) : u ≠ "" := by
  intro he
  subst he
  rw [show parse_s3_uri "" = none from rfl] at h
  cases h

/-- `rstrip('/')` is the identity on strings without a trailing slash. -/
theorem rstripSlash_eq_self (s : String) (h : s.toList.getLast? ≠ some '/') :
    rstripSlash s = s := by
  unfold rstripSlash
  have hrev : s.toList.reverse.head? ≠ some '/' := by
    rw [List.head?_reverse]
    exact h
  have hdrop : s.toList.reverse.dropWhile (fun c => c = '/') = s.toList.reverse := by
    cases hr : s.toList.reverse with
    | nil => rfl
    | cons a as =>
        rw [hr] at hrev
        have ha : ¬ a = '/' := by
          intro hh
          exact hrev (by rw [hh]; rfl)
        rw [List.dropWhile_cons_of_neg (by simpa using ha)]
  rw [hdrop, List.reverse_reverse, mk_toList]

/-- When every upload succeeds, the upload loop returns the actions and
entries for all listed files, in listing order. -/
theorem uploadLoop_all_ok (w : World) (ob opfx sid dir : String) (files : List String)
    (h : ∀ f ∈ files, w.uploadOk f = true) :
    uploadLoop w ob opfx sid dir files =
      Except.ok
        (files.map (fun f =>
          EffAction.upload (dir ++ "/" ++ f) ob (rstripSlash opfx ++ "/" ++ sid ++ "/" ++ f)),
         files.map (fun f =>
          uploadEntry ob (rstripSlash opfx ++ "/" ++ sid ++ "/" ++ f) f)) := by
  induction files with
  | nil => rfl
  | cons f fs ih =>
      have hf : w.uploadOk f = true := h f (by simp)
      have hfs : ∀ g ∈ fs, w.uploadOk g = true := fun g hg => h g (by simp [hg])
      simp only [uploadLoop, hf, ih hfs, List.map]
      simp

/-- Normal form of the handler once validation, URI parsing and the
download have gone through: the remaining control flow depends only on
the demucs exit code, the output directory and the uploads. -/
theorem invocations_postValidation (data : List (String × JValue)) (w : World)
    (inUri outUri ib ik ob opfx sid : String)
    (h1 : jsonGet data "input_s3_uri" = some (JValue.str inUri))
    (h2 : jsonGet data "output_s3_prefix" = some (JValue.str outUri))
    (h3 : parse_s3_uri inUri = some (ib, ik))
    (h4 : parse_s3_uri outUri = some (ob, opfx))
    (h5 : (jsonGet data "session_id").getD (JValue.str "default") = JValue.str sid)
    (h6 : w.downloadOk = true) :
    invocations (some data) w =
      (let local_input_path := UPLOAD_DIR ++ "/" ++ basename ik
       let dlAct := EffAction.download ib ik local_input_path
       let output_path := OUTPUT_DIR ++ "/" ++ sid
       let cmd : List String :=
         [w.sysExecutable, "-m", "demucs.separate",
          "-n", "htdemucs",
          "--two-stems", "vocals",
          "--name", "htdemucs",
          "-o", output_path,
          local_input_path]
       let tr1 : List EffAction := [dlAct, EffAction.runTool cmd]
       if w.demucsReturncode != 0 then
         errResponse w ("Demucs failed\n" ++ w.demucsStderr) tr1 ⟨true, true⟩
       else
         let separated_dir := output_path ++ "/htdemucs/" ++ stem (basename ik)
         if !w.sepDirExists then
           errResponse w "Output not found. Demucs path may be wrong." tr1 ⟨true, true⟩
         else
           match uploadLoop w ob opfx sid separated_dir w.sepFiles with
           | Except.error utr => errResponse w w.uploadErrText (tr1 ++ utr) ⟨true, true⟩
           | Except.ok (utr, uploaded_files) =>
               { statusCode := 200
                 body := JValue.obj
                   [("status", JValue.str "success"),
                    ("session_id", JValue.str sid),
                    ("output_files", JValue.arr uploaded_files)]
                 trace := tr1 ++ utr
                 disk := cleanup_local_files w ⟨true, true⟩ }) := by
  have hin : inUri ≠ "" := parse_some_ne_empty _ _ h3
  have hout : outUri ≠ "" := parse_some_ne_empty _ _ h4
  have htin : truthyOpt (jsonGet data "input_s3_uri") = true := by
    rw [h1]
    simp [truthyOpt, pyTruthy, hin]
  have htout : truthyOpt (jsonGet data "output_s3_prefix") = true := by
    rw [h2]
    simp [truthyOpt, pyTruthy, hout]
  simp only [invocations, htin, htout, Bool.not_true, Bool.or_self, if_false]
  rw [h1, h2, h5]
  simp only [h3, h4, h6, Bool.not_true, if_false]
  simp only [Bool.false_eq_true, if_false]

/-! ## C5: missing required fields -/

/-- C5: a parsed JSON object body missing `input_s3_uri` or missing
`output_s3_prefix` is answered with exactly HTTP 400 and a body carrying
an `error` key, before any download, subprocess or upload I/O. -/
theorem invocations_missing_field_400 (data : List (String × JValue)) (w : World)
    (h : jsonGet data "input_s3_uri" = none ∨ jsonGet data "output_s3_prefix" = none) :
    (invocations (some data) w).statusCode = 400 ∧
    bodyHasKey (invocations (some data) w).body "error" = true ∧
    (invocations (some data) w).trace = [] := by
  have hcond : (!truthyOpt (jsonGet data "input_s3_uri")
      || !truthyOpt (jsonGet data "output_s3_prefix")) = true := by
    rcases h with h | h <;> rw [h] <;> simp [truthyOpt]
  simp only [invocations, hcond, if_true]
  simp [bodyHasKey]

/-- Witness for C5: the empty JSON object body. -/
theorem invocations_missing_field_400_witness :
    (jsonGet ([] : List (String × JValue)) "input_s3_uri" = none ∨
      jsonGet ([] : List (String × JValue)) "output_s3_prefix" = none) ∧
    ((invocations (some ([] : List (String × JValue))) wOk).statusCode = 400 ∧
     bodyHasKey (invocations (some ([] : List (String × JValue))) wOk).body "error" = true ∧
     (invocations (some ([] : List (String × JValue))) wOk).trace = []) :=
  ⟨Or.inl rfl, invocations_missing_field_400 [] wOk (Or.inl rfl)⟩

/-! ## C9: falsy field values count as missing -/

/-- C9: a body whose `input_s3_uri` or `output_s3_prefix` is present but
falsy in Python's sense (empty string, `null`, `0`, `false`, empty array
or object) is rejected with HTTP 400 exactly like a missing key, because
the source checks `if not input_s3_uri or not output_s3_prefix`. -/
theorem invocations_falsy_field_400 (data : List (String × JValue)) (w : World)
    (h : (∃ v, jsonGet data "input_s3_uri" = some v ∧ pyTruthy v = false) ∨
         (∃ v, jsonGet data "output_s3_prefix" = some v ∧ pyTruthy v = false)) :
    (invocations (some data) w).statusCode = 400 ∧
    bodyHasKey (invocations (some data) w).body "error" = true := by
  have hcond : (!truthyOpt (jsonGet data "input_s3_uri")
      || !truthyOpt (jsonGet data "output_s3_prefix")) = true := by
    rcases h with ⟨v, hv, hf⟩ | ⟨v, hv, hf⟩ <;> rw [hv] <;> simp [truthyOpt, hf]
  simp only [invocations, hcond, if_true]
  simp [bodyHasKey]

/-- Witness for C9: `input_s3_uri` present as the empty string. -/
theorem invocations_falsy_field_400_witness :
    (∃ v, jsonGet [("input_s3_uri", JValue.str ""),
                   ("output_s3_prefix", JValue.str "s3://out-bucket/results")] "input_s3_uri" = some v ∧
      pyTruthy v = false) ∧
    ((invocations (some [("input_s3_uri", JValue.str ""),
                         ("output_s3_prefix", JValue.str "s3://out-bucket/results")]) wOk).statusCode = 400 ∧
     bodyHasKey (invocations (some [("input_s3_uri", JValue.str ""),
                                    ("output_s3_prefix", JValue.str "s3://out-bucket/results")]) wOk).body "error" = true) :=
  ⟨⟨JValue.str "", rfl, by decide⟩,
   invocations_falsy_field_400 _ wOk (Or.inl ⟨JValue.str "", rfl, by decide⟩)⟩

/-! ## C2: when the handler reaches the tool invocation -/

/-- C2 (counterexample): four well-formed JSON object bodies / worlds
with both fields non-missing for which the subprocess is never started:
a falsy (empty-string) field, a URI with no bucket/key separator, a
failing download, and a non-string `session_id`. -/
theorem invocations_reach_tool_cex :
    reachesToolStep (invocations
      (some [("input_s3_uri", JValue.str ""),
             ("output_s3_prefix", JValue.str "s3://out-bucket/results")]) wOk) = false ∧
    reachesToolStep (invocations
      (some [("input_s3_uri", JValue.str "s3://bucketonly"),
             ("output_s3_prefix", JValue.str "s3://out-bucket/results")]) wOk) = false ∧
    reachesToolStep (invocations (some reqData) { wOk with downloadOk := false }) = false ∧
    reachesToolStep (invocations
      (some (reqData ++ [("session_id", JValue.num 7)])) wOk) = false :=
  ⟨rfl, rfl, rfl, rfl⟩

/-- C2 (amended): validation never blocks a request with both required
fields present as truthy strings; when in addition both URIs contain a
bucket/key separator, the download succeeds and `session_id` (defaulted)
is a string, the handler always reaches the tool-invocation step. -/
theorem invocations_valid_reaches_tool (data : List (String × JValue)) (w : World)
    (inUri outUri ib ik ob opfx sid : String)
    (h1 : jsonGet data "input_s3_uri" = some (JValue.str inUri))
    (h2 : jsonGet data "output_s3_prefix" = some (JValue.str outUri))
    (h3 : parse_s3_uri inUri = some (ib, ik))
    (h4 : parse_s3_uri outUri = some (ob, opfx))
    (h5 : (jsonGet data "session_id").getD (JValue.str "default") = JValue.str sid)
    (h6 : w.downloadOk = true) :
    reachesToolStep (invocations (some data) w) = true := by
  unfold reachesToolStep
  rw [invocations_postValidation data w inUri outUri ib ik ob opfx sid h1 h2 h3 h4 h5 h6]
  simp only [errResponse]
  split
  · simp [isRunTool]
  · split
    · simp [isRunTool]
    · split
      · simp [isRunTool]
      · simp [isRunTool]

/-- Witness for the amended C2 on a fully valid request. -/
theorem invocations_valid_reaches_tool_witness :
    parse_s3_uri "s3://in-bucket/music/song.wav" = some ("in-bucket", "music/song.wav") ∧
    reachesToolStep (invocations (some reqData) wOk) = true :=
  ⟨rfl,
   invocations_valid_reaches_tool reqData wOk
     "s3://in-bucket/music/song.wav" "s3://out-bucket/results"
     "in-bucket" "music/song.wav" "out-bucket" "results" "default"
     rfl rfl rfl rfl rfl rfl⟩

/-! ## C4: non-zero tool exit code -/

/-- C4: whenever the request reaches the subprocess and demucs exits
non-zero, the handler answers HTTP 500 and the captured stderr text
occurs verbatim inside the `error` field (the source raises
`RuntimeError(f"Demucs failed\n{result.stderr}")`, which the top-level
handler wraps as `Error: <message>\n<traceback>`). -/
theorem invocations_demucs_failure_500 (data : List (String × JValue)) (w : World)
    (inUri outUri ib ik ob opfx sid : String)
    (h1 : jsonGet data "input_s3_uri" = some (JValue.str inUri))
    (h2 : jsonGet data "output_s3_prefix" = some (JValue.str outUri))
    (h3 : parse_s3_uri inUri = some (ib, ik))
    (h4 : parse_s3_uri outUri = some (ob, opfx))
    (h5 : (jsonGet data "session_id").getD (JValue.str "default") = JValue.str sid)
    (h6 : w.downloadOk = true)
    (hrc : w.demucsReturncode ≠ 0) :
    (invocations (some data) w).statusCode = 500 ∧
    ∃ e, (invocations (some data) w).body = JValue.obj [("error", JValue.str e)] ∧
      strContains e w.demucsStderr := by
  have hb : (w.demucsReturncode != 0) = true := by
    simp [bne_iff_ne, hrc]
  rw [invocations_postValidation data w inUri outUri ib ik ob opfx sid h1 h2 h3 h4 h5 h6]
  simp only [hb, if_true, errResponse, errorBody]
  refine ⟨by trivial,
    "Error: " ++ ("Demucs failed\n" ++ w.demucsStderr) ++ "\n" ++ w.tracebackText,
    by trivial, "Error: " ++ "Demucs failed\n", "\n" ++ w.tracebackText, ?_⟩
  simp only [strAssoc]

/-- Witness for C4: demucs exits 1 with `boom` on stderr. -/
theorem invocations_demucs_failure_500_witness :
    wDemucsFail.demucsReturncode ≠ 0 ∧
    ((invocations (some reqData) wDemucsFail).statusCode = 500 ∧
     ∃ e, (invocations (some reqData) wDemucsFail).body = JValue.obj [("error", JValue.str e)] ∧
       strContains e wDemucsFail.demucsStderr) :=
  ⟨by decide,
   invocations_demucs_failure_500 reqData wDemucsFail
     "s3://in-bucket/music/song.wav" "s3://out-bucket/results"
     "in-bucket" "music/song.wav" "out-bucket" "results" "default"
     rfl rfl rfl rfl rfl rfl (by decide)⟩

/-! ## C7: URI with no bucket/key separator -/

/-- C7: when a location URI contains no bucket/key separator (no `'/'`
after the scheme stripping), `parse_s3_uri` fails with the
unhandled-exception outcome (`IndexError`, modelled as `none`) rather
than the designed 400 validation, and the top-level handler turns it
into HTTP 500. -/
theorem invocations_no_separator_500 (data : List (String × JValue)) (w : World)
    (inUri outUri : String)
    (h1 : jsonGet data "input_s3_uri" = some (JValue.str inUri))
    (h2 : jsonGet data "output_s3_prefix" = some (JValue.str outUri))
    (hin : inUri ≠ "") (hout : outUri ≠ "")
    (hbad : ('/' : Char) ∉ stripS3All inUri.toList ∨
            ('/' : Char) ∉ stripS3All outUri.toList) :
    (parse_s3_uri inUri = none ∨ parse_s3_uri outUri = none) ∧
    (invocations (some data) w).statusCode = 500 := by
  have hpar : ∀ u : String, ('/' : Char) ∉ stripS3All u.toList → parse_s3_uri u = none := by
    intro u hu
    unfold parse_s3_uri parseS3Chars
    rw [splitFirst_eq_none _ hu]
  have htin : truthyOpt (some (JValue.str inUri)) = true := by
    simp [truthyOpt, pyTruthy, hin]
  have htout : truthyOpt (some (JValue.str outUri)) = true := by
    simp [truthyOpt, pyTruthy, hout]
  constructor
  · rcases hbad with h | h
    · exact Or.inl (hpar _ h)
    · exact Or.inr (hpar _ h)
  · simp only [invocations, h1, h2, htin, htout, Bool.not_true, Bool.or_self,
      Bool.false_eq_true, if_false]
    rcases hbad with h | h
    · rw [hpar _ h]
      simp [errResponse]
    · cases hp : parse_s3_uri inUri with
      | none => simp [errResponse]
      | some p =>
          obtain ⟨ib, ik⟩ := p
          rw [hpar _ h]
          simp [errResponse]

/-- Witness for C7: input URI `s3://bucketonly`. -/
theorem invocations_no_separator_500_witness :
    ('/' : Char) ∉ stripS3All "s3://bucketonly".toList ∧
    ((parse_s3_uri "s3://bucketonly" = none ∨
      parse_s3_uri "s3://out-bucket/results" = none) ∧
     (invocations (some [("input_s3_uri", JValue.str "s3://bucketonly"),
                         ("output_s3_prefix", JValue.str "s3://out-bucket/results")]) wOk).statusCode = 500) :=
  ⟨by decide,
   invocations_no_separator_500 _ wOk "s3://bucketonly" "s3://out-bucket/results"
     rfl rfl (by decide) (by decide) (Or.inl (by decide))⟩

/-! ## C3: successful run with the two conventional stem files -/

/-- C3: when the request is valid, the download succeeds, demucs exits 0
and the conventional output directory exists and contains exactly
`vocals.wav` and `no_vocals.wav` (in either listing order), and the
uploads go through, the handler answers HTTP 200 with status `success`
and an `output_files` list holding exactly those two entries, each with
URI `s3://<output_bucket>/<output_prefix>/<session_id>/<filename>` (for
an output prefix without trailing slash, on which the code's
`rstrip('/')` is the identity). -/
theorem invocations_success_output_files (data : List (String × JValue)) (w : World)
    (inUri outUri ib ik ob opfx sid : String)
    (h1 : jsonGet data "input_s3_uri" = some (JValue.str inUri))
    (h2 : jsonGet data "output_s3_prefix" = some (JValue.str outUri))
    (h3 : parse_s3_uri inUri = some (ib, ik))
    (h4 : parse_s3_uri outUri = some (ob, opfx))
    (h5 : (jsonGet data "session_id").getD (JValue.str "default") = JValue.str sid)
    (h6 : w.downloadOk = true)
    (h7 : w.demucsReturncode = 0)
    (h8 : w.sepDirExists = true)
    (h9 : w.sepFiles.Perm ["vocals.wav", "no_vocals.wav"])
    (h10 : ∀ f, w.uploadOk f = true)
    (h11 : opfx.toList.getLast? ≠ some '/') :
    (invocations (some data) w).statusCode = 200 ∧
    ∃ l, (invocations (some data) w).body =
        JValue.obj [("status", JValue.str "success"),
                    ("session_id", JValue.str sid),
                    ("output_files", JValue.arr l)] ∧
      l.Perm [claimEntry ob opfx sid "vocals.wav", claimEntry ob opfx sid "no_vocals.wav"] := by
  have hb0 : (w.demucsReturncode != 0) = false := by simp [h7]
  have hupl := uploadLoop_all_ok w ob opfx sid
    (OUTPUT_DIR ++ "/" ++ sid ++ "/htdemucs/" ++ stem (basename ik)) w.sepFiles
    (fun f _ => h10 f)
  have hfun : (fun f => uploadEntry ob (rstripSlash opfx ++ "/" ++ sid ++ "/" ++ f) f)
      = fun f => claimEntry ob opfx sid f := by
    funext f
    simp [uploadEntry, claimEntry, rstripSlash_eq_self opfx h11, strAssoc]
  rw [invocations_postValidation data w inUri outUri ib ik ob opfx sid h1 h2 h3 h4 h5 h6]
  simp only [hb0, h8, Bool.not_true, Bool.false_eq_true, if_false, hupl, hfun]
  exact ⟨by trivial, w.sepFiles.map (fun f => claimEntry ob opfx sid f), by trivial,
    by simpa using h9.map (fun f => claimEntry ob opfx sid f)⟩

/-- Witness for C3 on a fully successful request. -/
theorem invocations_success_output_files_witness :
    wOk.sepFiles.Perm ["vocals.wav", "no_vocals.wav"] ∧
    ((invocations (some reqData) wOk).statusCode = 200 ∧
     ∃ l, (invocations (some reqData) wOk).body =
         JValue.obj [("status", JValue.str "success"),
                     ("session_id", JValue.str "default"),
                     ("output_files", JValue.arr l)] ∧
       l.Perm [claimEntry "out-bucket" "results" "default" "vocals.wav",
               claimEntry "out-bucket" "results" "default" "no_vocals.wav"]) :=
  ⟨by decide,
   invocations_success_output_files reqData wOk
     "s3://in-bucket/music/song.wav" "s3://out-bucket/results"
     "in-bucket" "music/song.wav" "out-bucket" "results" "default"
     rfl rfl rfl rfl rfl rfl rfl rfl (by decide) (fun _ => rfl) (by decide)⟩

/-! ## C8: cleanup failures never change the response -/

/-- C8: for every request on the success path, whatever the two deletion
calls inside `cleanup_local_files` do (raise or not — the exception is
caught and logged inside the routine and never propagates), the response
is unchanged: HTTP 200 with the same success payload. -/
theorem invocations_cleanup_throw_response_unchanged (data : List (String × JValue)) (w : World)
    (inUri outUri ib ik ob opfx sid : String)
    (h1 : jsonGet data "input_s3_uri" = some (JValue.str inUri))
    (h2 : jsonGet data "output_s3_prefix" = some (JValue.str outUri))
    (h3 : parse_s3_uri inUri = some (ib, ik))
    (h4 : parse_s3_uri outUri = some (ob, opfx))
    (h5 : (jsonGet data "session_id").getD (JValue.str "default") = JValue.str sid)
    (h6 : w.downloadOk = true)
    (h7 : w.demucsReturncode = 0)
    (h8 : w.sepDirExists = true)
    (h10 : ∀ f, w.uploadOk f = true) :
    ∀ b1 b2 : Bool,
      (invocations (some data) { w with removeThrows := b1, rmtreeThrows := b2 }).statusCode = 200 ∧
      (invocations (some data) { w with removeThrows := b1, rmtreeThrows := b2 }).body =
        (invocations (some data) w).body := by
  intro b1 b2
  have hpost := invocations_postValidation data w inUri outUri ib ik ob opfx sid h1 h2 h3 h4 h5 h6
  have hpost2 := invocations_postValidation data { w with removeThrows := b1, rmtreeThrows := b2 }
    inUri outUri ib ik ob opfx sid h1 h2 h3 h4 h5 h6
  have hb0 : (w.demucsReturncode != 0) = false := by simp [h7]
  have hupl := uploadLoop_all_ok w ob opfx sid
    (OUTPUT_DIR ++ "/" ++ sid ++ "/htdemucs/" ++ stem (basename ik)) w.sepFiles
    (fun f _ => h10 f)
  have hupl2 := uploadLoop_all_ok { w with removeThrows := b1, rmtreeThrows := b2 } ob opfx sid
    (OUTPUT_DIR ++ "/" ++ sid ++ "/htdemucs/" ++ stem (basename ik)) w.sepFiles
    (fun f _ => h10 f)
  rw [h8] at hupl2
  rw [hpost, hpost2]
  simp only [hb0, h8, Bool.not_true, Bool.false_eq_true, if_false, hupl, hupl2]
  exact ⟨by trivial, by trivial⟩

/-- Witness for C8: both deletion calls raise; the response is the same
HTTP 200 success payload. -/
theorem invocations_cleanup_throw_response_unchanged_witness :
    (invocations (some reqData) { wOk with removeThrows := true, rmtreeThrows := true }).statusCode = 200 ∧
    (invocations (some reqData) { wOk with removeThrows := true, rmtreeThrows := true }).body =
      (invocations (some reqData) wOk).body :=
  invocations_cleanup_throw_response_unchanged reqData wOk
    "s3://in-bucket/music/song.wav" "s3://out-bucket/results"
    "in-bucket" "music/song.wav" "out-bucket" "results" "default"
    rfl rfl rfl rfl rfl rfl rfl rfl (fun _ => rfl) true true

/-! ## C1: cleanup at the end of the request -/

/-- C1 (counterexample): a request on which demucs exits non-zero: the
handler returns the error response (HTTP 500) and, although neither
deletion call would throw, both the downloaded input file and the
per-session output directory are still on disk afterwards — `serve.py`
calls `cleanup_local_files` only on the success path and has no
`finally`, so cleanup is not attempted on the error path. -/
theorem invocations_error_no_cleanup_cex :
    wDemucsFail.removeThrows = false ∧
    wDemucsFail.rmtreeThrows = false ∧
    (invocations (some reqData) wDemucsFail).statusCode = 500 ∧
    (invocations (some reqData) wDemucsFail).disk.inputFileExists = true ∧
    (invocations (some reqData) wDemucsFail).disk.outputDirExists = true :=
  ⟨rfl, rfl, rfl, rfl, rfl⟩

/-- C1 (amended): cleanup is attempted only at the end of a successful
request: on the success path, when neither deletion call throws, the
local input file and the per-session output directory are absent
afterwards and the response is HTTP 200.  On error responses no cleanup
is attempted and the staged files may remain (see the counterexample). -/
theorem invocations_success_cleanup (data : List (String × JValue)) (w : World)
    (inUri outUri ib ik ob opfx sid : String)
    (h1 : jsonGet data "input_s3_uri" = some (JValue.str inUri))
    (h2 : jsonGet data "output_s3_prefix" = some (JValue.str outUri))
    (h3 : parse_s3_uri inUri = some (ib, ik))
    (h4 : parse_s3_uri outUri = some (ob, opfx))
    (h5 : (jsonGet data "session_id").getD (JValue.str "default") = JValue.str sid)
    (h6 : w.downloadOk = true)
    (h7 : w.demucsReturncode = 0)
    (h8 : w.sepDirExists = true)
    (h10 : ∀ f, w.uploadOk f = true)
    (hrm : w.removeThrows = false)
    (hrt : w.rmtreeThrows = false) :
    (invocations (some data) w).statusCode = 200 ∧
    (invocations (some data) w).disk.inputFileExists = false ∧
    (invocations (some data) w).disk.outputDirExists = false := by
  have hb0 : (w.demucsReturncode != 0) = false := by simp [h7]
  have hupl := uploadLoop_all_ok w ob opfx sid
    (OUTPUT_DIR ++ "/" ++ sid ++ "/htdemucs/" ++ stem (basename ik)) w.sepFiles
    (fun f _ => h10 f)
  rw [invocations_postValidation data w inUri outUri ib ik ob opfx sid h1 h2 h3 h4 h5 h6]
  simp only [hb0, h8, Bool.not_true, Bool.false_eq_true, if_false, hupl]
  simp [cleanup_local_files, hrm, hrt]

/-- Witness for the amended C1 on a fully successful request. -/
theorem invocations_success_cleanup_witness :
    wOk.removeThrows = false ∧
    ((invocations (some reqData) wOk).statusCode = 200 ∧
     (invocations (some reqData) wOk).disk.inputFileExists = false ∧
     (invocations (some reqData) wOk).disk.outputDirExists = false) :=
  ⟨rfl,
   invocations_success_cleanup reqData wOk
     "s3://in-bucket/music/song.wav" "s3://out-bucket/results"
     "in-bucket" "music/song.wav" "out-bucket" "results" "default"
     rfl rfl rfl rfl rfl rfl rfl rfl (fun _ => rfl) rfl rfl⟩

